import Mathlib

/-!
Verification of the nanoclaw message-routing core (repository luthebao/nanoclaw).

Shallow embedding, translated from the Python sources:
  * src/nanoclaw/agent/compaction.py  — context compaction
  * src/nanoclaw/bus/events.py        — InboundMessage / OutboundMessage serialization
  * src/nanoclaw/bus/network.py       — length-prefixed TCP bus
  * src/nanoclaw/channels/manager.py  — channel start supervision
  * src/nanoclaw/channels/telegram.py — message splitting and inbound authorization

Machine integers do not occur (Python ints are unbounded); Python ints are
embedded as Int (or Nat where the source value is provably non-negative),
lists as List, dicts with a fixed key set as structures, and fallible
operations as Option-valued functions.
-/

set_option maxHeartbeats 1000000

/-! ## Compaction (src/nanoclaw/agent/compaction.py)

Session messages are Python dicts.  The compaction claims inspect only the
`role` and `content` keys (the keys `apply_compaction` writes), so a message
is embedded as a record of those two fields; all other keys are carried
verbatim by the source and play no part in the claims. -/

/-- One chat message of a session history. -/
structure ChatMessage where
  role : String
  content : String
deriving DecidableEq, Repr

/-- The single synthetic user message `apply_compaction` splices in
(compaction.py lines 76–79). -/
def summary_message (summary : String) : ChatMessage :=
  { role := "user", content := "[Previous conversation summary]\n" ++ summary }

/-- compaction.py `select_messages_to_compact` (lines 11–23): `start` is pinned
to 1 (preserve the system prompt), `end = len(messages) - keep_recent` as a
Python int (possibly negative, hence `Int`), and `(0, 0)` signals "nothing to
do" when `end <= start`. -/
def select_messages_to_compact (messages : List ChatMessage) (keep_recent : Int := 6) :
    Int × Int :=
  let start : Int := 1
  let stop : Int := (messages.length : Int) - keep_recent
  if stop ≤ start then (0, 0) else (start, stop)

/-- compaction.py `apply_compaction` (lines 74–80):
`messages[:start] + [summary_message] + messages[end:]`.  The claims apply it
at slice indices `0 ≤ start ≤ end ≤ len(messages)`, where Python slicing
agrees with `take`/`drop`. -/
def apply_compaction (messages : List ChatMessage) (start stop : Nat) (summary : String) :
    List ChatMessage :=
  messages.take start ++ [summary_message summary] ++ messages.drop stop

/-- Claim C3: `select_messages_to_compact` returns `(1, len(ms) - keep_recent)`
when `len(ms) - keep_recent > 1` and `(0, 0)` otherwise; in particular `(0, 0)`
whenever `len(ms) ≤ keep_recent + 1`. -/
theorem select_messages_to_compact_spec (messages : List ChatMessage) (keep_recent : Int) :
    (1 < (messages.length : Int) - keep_recent →
      select_messages_to_compact messages keep_recent =
        (1, (messages.length : Int) - keep_recent)) ∧
    ((messages.length : Int) - keep_recent ≤ 1 →
      select_messages_to_compact messages keep_recent = (0, 0)) ∧
    ((messages.length : Int) ≤ keep_recent + 1 →
      select_messages_to_compact messages keep_recent = (0, 0)) := by
  refine ⟨fun h => ?_, fun h => ?_, fun h => ?_⟩ <;>
    simp only [select_messages_to_compact] <;>
    [rw [if_neg (by omega)]; rw [if_pos (by omega)]; rw [if_pos (by omega)]]

/-- Witness for C3 at a concrete input: 8 messages, keep_recent 6. -/
theorem select_messages_to_compact_spec_witness :
    (1 : Int) < (8 : Int) - 6 ∧
      select_messages_to_compact (List.replicate 8 ⟨"user", "m"⟩) 6 = (1, 2) :=
  ⟨by decide,
    by
      have h := (select_messages_to_compact_spec (List.replicate 8 ⟨"user", "m"⟩) 6).1
      simp only [List.length_replicate] at h
      exact h (by decide)⟩

/-- Claim C4: for `start ≤ end ≤ len(messages)`, `apply_compaction` replaces
`messages[start:end]` with exactly one user-role message containing the
summary, leaves the prefix (in particular message index 0 when `1 ≤ start`)
and the suffix verbatim, and the result has length
`start + 1 + (len(messages) - end)`. -/
theorem apply_compaction_spec (messages : List ChatMessage) (start stop : Nat)
    (summary : String) (h1 : start ≤ stop) (h2 : stop ≤ messages.length) :
    (apply_compaction messages start stop summary).length
        = start + 1 + (messages.length - stop) ∧
    (apply_compaction messages start stop summary).take start = messages.take start ∧
    (apply_compaction messages start stop summary).drop (start + 1) = messages.drop stop ∧
    (apply_compaction messages start stop summary)[start]? = some (summary_message summary) ∧
    (summary_message summary).role = "user" ∧
    (summary_message summary).content = "[Previous conversation summary]\n" ++ summary ∧
    (1 ≤ start → (apply_compaction messages start stop summary).head? = messages.head?) := by
  have hlen : (messages.take start).length = start := by
    rw [List.length_take]; omega
  refine ⟨?_, ?_, ?_, ?_, rfl, rfl, ?_⟩
  · simp only [apply_compaction, List.length_append, List.length_take,
      List.length_drop, List.length_cons, List.length_nil]
    omega
  · rw [apply_compaction, List.append_assoc, List.take_append_of_le_length (by omega),
      List.take_take, Nat.min_self]
  · have key : (messages.take start ++ [summary_message summary]).length = start + 1 := by
      simp [hlen]
    rw [apply_compaction, ← key, List.drop_left]
  · rw [apply_compaction, List.append_assoc, List.getElem?_append_right (by omega), hlen,
      Nat.sub_self]
    simp
  · intro hstart
    rw [apply_compaction, List.append_assoc]
    rcases messages with _ | ⟨m, rest⟩
    · simp at h2
      omega
    · rcases start with _ | s
      · omega
      · rfl

/-- Witness for C4 at a concrete input: 4 messages, slice (1, 3). -/
theorem apply_compaction_spec_witness :
    ((1 : Nat) ≤ 3 ∧ (3 : Nat) ≤
        ([⟨"system", "s"⟩, ⟨"user", "u"⟩, ⟨"assistant", "a"⟩, ⟨"user", "u2"⟩] :
          List ChatMessage).length) ∧
    (apply_compaction [⟨"system", "s"⟩, ⟨"user", "u"⟩, ⟨"assistant", "a"⟩, ⟨"user", "u2"⟩]
        1 3 "S")[1]? = some (summary_message "S") :=
  ⟨⟨by decide, by decide⟩,
    (apply_compaction_spec [⟨"system", "s"⟩, ⟨"user", "u"⟩, ⟨"assistant", "a"⟩, ⟨"user", "u2"⟩]
      1 3 "S" (by decide) (by decide)).2.2.2.1⟩

/-- Claim C2 (amended): compaction is stable under repetition for the slices
compaction actually uses.  For a valid slice starting at 1 (the start
`select_messages_to_compact` produces whenever it selects anything), if the
second selection computed on the post-compaction list is a real slice
`(1, stop₂)`, then re-compacting equals a single compaction of the original
list at some end index `stop' ≤ len(messages)`. -/
theorem compaction_stable (messages : List ChatMessage) (S1 S2 : String) (keep_recent : Int)
    (stop : Nat) (stop₂ : Nat) (h1 : 1 ≤ stop) (h2 : stop ≤ messages.length)
    (hsel : select_messages_to_compact (apply_compaction messages 1 stop S1) keep_recent
      = (1, (stop₂ : Int))) :
    2 ≤ stop₂ ∧ ∃ stop' : Nat, stop' ≤ messages.length ∧
      apply_compaction (apply_compaction messages 1 stop S1) 1 stop₂ S2
        = apply_compaction messages 1 stop' S2 := by
  have hstop₂ : 2 ≤ stop₂ := by
    simp only [select_messages_to_compact] at hsel
    split at hsel
    · rw [Prod.ext_iff] at hsel
      simp at hsel
    · rw [Prod.mk.injEq] at hsel
      obtain ⟨-, h2'⟩ := hsel
      rename_i hcond
      omega
  rcases messages with _ | ⟨m, rest⟩
  · simp at h2
    omega
  · refine ⟨hstop₂, min (stop + (stop₂ - 2)) (m :: rest).length, Nat.min_le_right _ _, ?_⟩
    have hms' : apply_compaction (m :: rest) 1 stop S1
        = m :: summary_message S1 :: (m :: rest).drop stop := by
      simp [apply_compaction]
    rw [hms']
    have hdrop : (m :: summary_message S1 :: (m :: rest).drop stop).drop stop₂
        = (m :: rest).drop (stop + (stop₂ - 2)) := by
      obtain ⟨k, hk⟩ : ∃ k, stop₂ = k + 2 := ⟨stop₂ - 2, by omega⟩
      subst hk
      simp only [List.drop_succ_cons, List.drop_drop]
      congr 1
    have hdrop' : (m :: rest).drop (min (stop + (stop₂ - 2)) (m :: rest).length)
        = (m :: rest).drop (stop + (stop₂ - 2)) := by
      rcases Nat.le_total (stop + (stop₂ - 2)) (m :: rest).length with h | h
      · rw [Nat.min_eq_left h]
      · rw [Nat.min_eq_right h, List.drop_of_length_le h, List.drop_of_length_le le_rfl]
    simp only [apply_compaction, List.take_succ_cons, List.take_zero, hdrop, hdrop']

/-- Witness for C2 at a concrete input: 4 messages, first slice (1, 3),
keep_recent 0; the second selection is (1, 3). -/
theorem compaction_stable_witness :
    ((1 : Nat) ≤ 3 ∧ (3 : Nat) ≤
        ([⟨"system", "s"⟩, ⟨"user", "u"⟩, ⟨"assistant", "a"⟩, ⟨"user", "u2"⟩] :
          List ChatMessage).length ∧
      select_messages_to_compact
        (apply_compaction [⟨"system", "s"⟩, ⟨"user", "u"⟩, ⟨"assistant", "a"⟩, ⟨"user", "u2"⟩]
          1 3 "A") 0 = (1, ((3 : Nat) : Int))) ∧
    (2 ≤ 3 ∧ ∃ stop' : Nat, stop' ≤
        ([⟨"system", "s"⟩, ⟨"user", "u"⟩, ⟨"assistant", "a"⟩, ⟨"user", "u2"⟩] :
          List ChatMessage).length ∧
      apply_compaction
          (apply_compaction
            [⟨"system", "s"⟩, ⟨"user", "u"⟩, ⟨"assistant", "a"⟩, ⟨"user", "u2"⟩] 1 3 "A")
          1 3 "B"
        = apply_compaction
            [⟨"system", "s"⟩, ⟨"user", "u"⟩, ⟨"assistant", "a"⟩, ⟨"user", "u2"⟩] 1 stop' "B") :=
  ⟨⟨by decide, by decide, by decide⟩,
    compaction_stable [⟨"system", "s"⟩, ⟨"user", "u"⟩, ⟨"assistant", "a"⟩, ⟨"user", "u2"⟩]
      "A" "B" 0 3 3 (by decide) (by decide) (by decide)⟩

/-- Counterexample to claim C2 as stated: with the empty message list and the
valid slice `(0, 0)`, the second slice `select_messages_to_compact` computes on
the post-compaction list is `(0, 0)` again, yet no end index `stop'` into the
original list makes the double compaction equal a single one (the inner
summary message survives in the former but cannot occur in the latter). -/
theorem compaction_stable_counterexample :
    select_messages_to_compact (apply_compaction ([] : List ChatMessage) 0 0 "x") 6 = (0, 0) ∧
    ¬ ∃ stop' : Nat,
      apply_compaction (apply_compaction ([] : List ChatMessage) 0 0 "x") 0 0 "y"
        = apply_compaction ([] : List ChatMessage) 0 stop' "y" := by
  refine ⟨by decide, ?_⟩
  rintro ⟨stop', h⟩
  simp [apply_compaction] at h

/-! ## Channel start supervision (src/nanoclaw/channels/manager.py)

`ChannelManager._start_channel` (lines 77–96) runs
`for attempt in range(1, max_retries + 1)` with `max_retries = 5` and
`delay = 2`; a successful `channel.start()` returns, a failure on the last
attempt is logged and the method returns (nothing is re-raised), and any other
failure sleeps `delay` seconds and doubles it, capped at 60
(`delay = min(delay * 2, 60)`).  `outcome n` tells whether the n-th call to
`channel.start()` returns normally (`true`) or raises (`false`). -/

/-- Trace of one `_start_channel` run: how many times `channel.start()` was
called, the delays slept between attempts (in order), and whether some attempt
succeeded. -/
structure StartTrace where
  starts : Nat
  sleeps : List Nat
  succeeded : Bool
deriving DecidableEq, Repr

/-- The retry loop of `_start_channel`, with `remaining` attempts left. -/
def start_channel_go (outcome : Nat → Bool) (attempt delay : Nat) : Nat → StartTrace
  | 0 => { starts := 0, sleeps := [], succeeded := false }
  | remaining + 1 =>
    if outcome attempt then { starts := 1, sleeps := [], succeeded := true }
    else if remaining = 0 then { starts := 1, sleeps := [], succeeded := false }
    else
      let t := start_channel_go outcome (attempt + 1) (min (delay * 2) 60) remaining
      { starts := t.starts + 1, sleeps := delay :: t.sleeps, succeeded := t.succeeded }

/-- `ChannelManager._start_channel`: 5 attempts maximum, initial delay 2. -/
def start_channel (outcome : Nat → Bool) : StartTrace :=
  start_channel_go outcome 1 2 5

/-- Claim C7: when every call to `channel.start()` fails synchronously,
`_start_channel` calls it exactly 5 times and returns without raising
(`succeeded = false` records the logged final failure), and the delays slept
between consecutive attempts are 2, 4, 8, 16 — an initial segment of the
exponential-backoff schedule 2, 4, 8, 16, 32, 60 that `min (delay * 2) 60`
generates, capped at 60. -/
theorem start_channel_all_fail (outcome : Nat → Bool) (h : ∀ n, outcome n = false) :
    start_channel outcome = { starts := 5, sleeps := [2, 4, 8, 16], succeeded := false } ∧
    ∃ t, [2, 4, 8, 16] ++ t = [2, 4, 8, 16, 32, 60] := by
  refine ⟨?_, [32, 60], rfl⟩
  simp [start_channel, start_channel_go, h]

/-- Witness for C7: the always-failing outcome. -/
theorem start_channel_all_fail_witness :
    (∀ n : Nat, (fun _ : Nat => false) n = false) ∧
    start_channel (fun _ => false)
      = { starts := 5, sleeps := [2, 4, 8, 16], succeeded := false } :=
  ⟨fun _ => rfl, (start_channel_all_fail (fun _ => false) (fun _ => rfl)).1⟩

/-! ## Wire codec (src/nanoclaw/bus/network.py)

`_recv_msg` (lines 28–33) reads a 4-byte big-endian length header with
`reader.readexactly`, then exactly that many payload bytes, and hands the
payload to `json.loads`.  `readexactly` raises `asyncio.IncompleteReadError`
when the stream ends first (short read) and `json.loads` raises
`json.JSONDecodeError` on a malformed payload; no other check is performed.
The byte stream is embedded as the list of bytes the peer sends before
closing, and each failure as a `RecvResult` constructor.

`json.loads` is Python's standard-library JSON decoder; the model below
implements the fragment the wire claims exercise — `null`, booleans, integer
numbers, strings without escape sequences, arrays, objects and
whitespace — as a fuel-indexed recursive-descent parser over bytes. -/

/-- A decoded JSON value (integer-number fragment; strings are kept as their
raw bytes). -/
inductive JValue where
  | null : JValue
  | bool (b : Bool) : JValue
  | num (n : Int) : JValue
  | str (bytes : List Nat) : JValue
  | arr (items : List JValue) : JValue
  | obj (fields : List (List Nat × JValue)) : JValue

/-- JSON whitespace bytes: space, tab, newline, carriage return. -/
def jsonWs (b : Nat) : Bool :=
  (b == 32) || (b == 9) || (b == 10) || (b == 13)

/-- A byte that may appear inside the model's strings: anything but the
closing quote or a backslash. -/
def jsonStrBody (b : Nat) : Bool :=
  (b != 34) && (b != 92)

/-- ASCII digit. -/
def jsonDigit (b : Nat) : Bool :=
  (48 ≤ b) && (b ≤ 57)

/-- Match a literal byte sequence and return the remainder. -/
def stripWord (word s : List Nat) : Option (List Nat) :=
  if word.isPrefixOf s then some (s.drop word.length) else none

mutual

/-- Parse one JSON value; `fuel` bounds the recursion depth (each recursive
call consumes at least one byte, so `length + 1` fuel always suffices). -/
def parseJValue : Nat → List Nat → Option (JValue × List Nat)
  | 0, _ => none
  | fuel + 1, s =>
    match s.dropWhile jsonWs with
    | [] => none
    | c :: rest =>
      if c = 110 then (stripWord [117, 108, 108] rest).map (fun r => (JValue.null, r))
      else if c = 116 then (stripWord [114, 117, 101] rest).map (fun r => (JValue.bool true, r))
      else if c = 102 then
        (stripWord [97, 108, 115, 101] rest).map (fun r => (JValue.bool false, r))
      else if c = 34 then
        match rest.dropWhile jsonStrBody with
        | 34 :: r2 => some (JValue.str (rest.takeWhile jsonStrBody), r2)
        | _ => none
      else if c = 91 then
        match rest.dropWhile jsonWs with
        | 93 :: r2 => some (JValue.arr [], r2)
        | _ => (parseJItems fuel rest).map (fun p => (JValue.arr p.1, p.2))
      else if c = 123 then
        match rest.dropWhile jsonWs with
        | 125 :: r2 => some (JValue.obj [], r2)
        | _ => (parseJMembers fuel rest).map (fun p => (JValue.obj p.1, p.2))
      else if c = 45 ∨ jsonDigit c then
        let digits := (if c = 45 then rest else c :: rest).takeWhile jsonDigit
        let after := (if c = 45 then rest else c :: rest).drop digits.length
        if digits.isEmpty then none
        else
          let mag : Nat := digits.foldl (fun a b => a * 10 + (b - 48)) 0
          some (JValue.num (if c = 45 then -(mag : Int) else (mag : Int)), after)
      else none

/-- Parse the comma-separated items of a non-empty array, up to `]`. -/
def parseJItems : Nat → List Nat → Option (List JValue × List Nat)
  | 0, _ => none
  | fuel + 1, s =>
    match parseJValue fuel s with
    | none => none
    | some (v, r) =>
      match r.dropWhile jsonWs with
      | 44 :: r2 => (parseJItems fuel r2).map (fun p => (v :: p.1, p.2))
      | 93 :: r2 => some ([v], r2)
      | _ => none

/-- Parse the comma-separated `"key": value` members of a non-empty object,
up to the closing brace (byte 125). -/
def parseJMembers : Nat → List Nat → Option (List (List Nat × JValue) × List Nat)
  | 0, _ => none
  | fuel + 1, s =>
    match s.dropWhile jsonWs with
    | 34 :: rest =>
      match rest.dropWhile jsonStrBody with
      | 34 :: r2 =>
        match r2.dropWhile jsonWs with
        | 58 :: r3 =>
          match parseJValue fuel r3 with
          | none => none
          | some (v, r4) =>
            match r4.dropWhile jsonWs with
            | 44 :: r5 =>
              (parseJMembers fuel r5).map
                (fun p => ((rest.takeWhile jsonStrBody, v) :: p.1, p.2))
            | 125 :: r5 => some ([(rest.takeWhile jsonStrBody, v)], r5)
            | _ => none
        | _ => none
      | _ => none
    | _ => none

end

/-- `json.loads` over bytes: one value, then only trailing whitespace. -/
def json_loads (s : List Nat) : Option JValue :=
  match parseJValue (s.length + 1) s with
  | some (v, r) => if r.dropWhile jsonWs = [] then some v else none
  | none => none

/-- Result of one `_recv_msg` call. -/
inductive RecvResult where
  /-- The decoded frame payload. -/
  | ok (msg : JValue) : RecvResult
  /-- `asyncio.IncompleteReadError` out of `reader.readexactly`: the stream
  ended before the 4-byte header or the announced payload arrived. -/
  | shortRead : RecvResult
  /-- `json.JSONDecodeError` out of `json.loads`. -/
  | jsonError : RecvResult

/-- `struct.unpack("!I", header)`: 4-byte big-endian unsigned int (socket
bytes are < 256). -/
def be32 (b0 b1 b2 b3 : Nat) : Nat :=
  ((b0 * 256 + b1) * 256 + b2) * 256 + b3

/-- network.py `_recv_msg` (lines 28–33) on the byte stream the peer sends
before closing: read 4 header bytes, then `length` payload bytes, then
`json.loads` the payload. -/
def recv_msg (stream : List Nat) : RecvResult :=
  match stream with
  | b0 :: b1 :: b2 :: b3 :: rest =>
    if rest.length < be32 b0 b1 b2 b3 then RecvResult.shortRead
    else
      match json_loads (rest.take (be32 b0 b1 b2 b3)) with
      | some v => RecvResult.ok v
      | none => RecvResult.jsonError
  | _ => RecvResult.shortRead

/-- Claim C5 (amended): `_recv_msg` fails in exactly two cases — a short read
(stream ends before the 4-byte header or the announced payload arrives, as
`IncompleteReadError`) and a JSON parse error on the payload (as
`JSONDecodeError`).  There is no frame-length ceiling and no `ProtocolError`
type: a complete frame of any announced length is handed to `json.loads`,
whose outcome alone decides between success and parse error. -/
theorem recv_msg_error_cases :
    (∀ stream : List Nat, stream.length < 4 → recv_msg stream = RecvResult.shortRead) ∧
    (∀ b0 b1 b2 b3 : Nat, ∀ rest : List Nat, rest.length < be32 b0 b1 b2 b3 →
      recv_msg (b0 :: b1 :: b2 :: b3 :: rest) = RecvResult.shortRead) ∧
    (∀ b0 b1 b2 b3 : Nat, ∀ rest : List Nat, be32 b0 b1 b2 b3 ≤ rest.length →
      recv_msg (b0 :: b1 :: b2 :: b3 :: rest) =
        match json_loads (rest.take (be32 b0 b1 b2 b3)) with
        | some v => RecvResult.ok v
        | none => RecvResult.jsonError) := by
  refine ⟨?_, ?_, ?_⟩
  · intro stream h
    match stream with
    | [] => rfl
    | [_] => rfl
    | [_, _] => rfl
    | [_, _, _] => rfl
    | _ :: _ :: _ :: _ :: _ => simp at h; omega
  · intro b0 b1 b2 b3 rest h
    simp [recv_msg, h]
  · intro b0 b1 b2 b3 rest h
    simp [recv_msg, Nat.not_lt.mpr h]

/-- Witness for C5's amended theorem: a complete two-byte frame whose payload
is the JSON text `17`. -/
theorem recv_msg_error_cases_witness :
    be32 0 0 0 2 ≤ ([49, 55] : List Nat).length ∧
    recv_msg [0, 0, 0, 2, 49, 55] =
      match json_loads (([49, 55] : List Nat).take (be32 0 0 0 2)) with
      | some v => RecvResult.ok v
      | none => RecvResult.jsonError :=
  ⟨by decide, recv_msg_error_cases.2.2 0 0 0 2 [49, 55] (by decide)⟩

/-- `takeWhile` passes over a block of repeated satisfying elements. -/
theorem takeWhile_replicate_append {α : Type} (p : α → Bool) (a : α) (h : p a = true)
    (n : Nat) (l : List α) :
    (List.replicate n a ++ l).takeWhile p = List.replicate n a ++ l.takeWhile p := by
  induction n with
  | zero => simp
  | succ n ih => simp [List.replicate_succ, List.takeWhile_cons, h, ih]

/-- `dropWhile` passes over a block of repeated satisfying elements. -/
theorem dropWhile_replicate_append {α : Type} (p : α → Bool) (a : α) (h : p a = true)
    (n : Nat) (l : List α) :
    (List.replicate n a ++ l).dropWhile p = l.dropWhile p := by
  induction n with
  | zero => simp
  | succ n ih => simp [List.replicate_succ, List.dropWhile_cons, h, ih]
/-- The model json decoder accepts the JSON string of n repeated bytes `a`. -/
theorem parseJValue_string_run (fuel n : Nat) :
    parseJValue (fuel + 1) (34 :: (List.replicate n 97 ++ [34]))
      = some (JValue.str (List.replicate n 97), []) := by
  have hws34 : jsonWs 34 = false := rfl
  have hdropBody : (List.replicate n 97 ++ [34] : List Nat).dropWhile jsonStrBody = [34] := by
    rw [dropWhile_replicate_append _ _ (by decide)]
    decide
  have htakeBody : (List.replicate n 97 ++ [34] : List Nat).takeWhile jsonStrBody
      = List.replicate n 97 := by
    rw [takeWhile_replicate_append _ _ (by decide)]
    simp [List.takeWhile_cons, jsonStrBody]
  simp [parseJValue, List.dropWhile_cons, hws34, hdropBody, htakeBody]

/-- `json_loads` on the n-byte repeated string payload. -/
theorem json_loads_string_run (n : Nat) :
    json_loads (34 :: (List.replicate n 97 ++ [34]))
      = some (JValue.str (List.replicate n 97)) := by
  have hlen : (34 :: (List.replicate n 97 ++ [34]) : List Nat).length = n + 2 := by
    simp [List.length_replicate]
  simp only [json_loads, hlen]
  rw [show n + 2 + 1 = (n + 2) + 1 from rfl, parseJValue_string_run]
  simp

/-- A complete frame carrying the (n+2)-byte JSON string payload is decoded
by `_recv_msg` whatever its announced length. -/
theorem recv_msg_string_frame (b0 b1 b2 b3 n : Nat) (h : be32 b0 b1 b2 b3 = n + 2) :
    recv_msg (b0 :: b1 :: b2 :: b3 :: (34 :: (List.replicate n 97 ++ [34])))
      = RecvResult.ok (JValue.str (List.replicate n 97)) := by
  have hlen : (34 :: (List.replicate n 97 ++ [34]) : List Nat).length = n + 2 := by
    simp [List.length_replicate]
  simp only [recv_msg, h, hlen, Nat.lt_irrefl, if_false]
  rw [List.take_of_length_le (le_of_eq hlen), json_loads_string_run]

/-- Counterexample to claim C5 as stated: a frame announcing
16777218 bytes — above the claimed default ceiling of 16 MiB = 16777216 —
whose payload is a well-formed JSON string, is decoded successfully by
`_recv_msg` instead of failing: the code checks no length ceiling and raises
no ProtocolError. -/
theorem recv_msg_no_ceiling_counterexample :
    16777216 < be32 1 0 0 2 ∧
    recv_msg (1 :: 0 :: 0 :: 2 :: (34 :: (List.replicate 16777216 97 ++ [34])))
      = RecvResult.ok (JValue.str (List.replicate 16777216 97)) := by
  refine ⟨by norm_num [be32], ?_⟩
  exact recv_msg_string_frame 1 0 0 2 16777216 (by norm_num [be32])

/-! ## Server-side outbound fan-out (src/nanoclaw/bus/network.py, lines 64–73)

`NetworkBusServer.publish_outbound` walks `self._clients`, calls `_send_msg`
on each writer, collects into `dead` every writer whose send raises
`ConnectionError` or `OSError`, and finally runs
`for w in dead: self._clients.remove(w)`.  Writers are distinct objects
(one per accepted connection), embedded here by a numeric `id`;
`Python list.remove` removes the first matching element, embedded as
`eraseP` on the id.  `sendFails` says whether this writer's send raises a
connection error during this call. -/

/-- One connected gateway writer as `publish_outbound` sees it. -/
structure ClientConn where
  id : Nat
  sendFails : Bool
deriving DecidableEq, Repr

/-- Everything observable about one `publish_outbound` call. -/
structure PublishOutcome where
  /-- ids `_send_msg` is called on, in list order (the loop never stops early). -/
  sendAttempts : List Nat
  /-- ids whose send completed without raising. -/
  delivered : List Nat
  /-- `self._clients` after the eviction loop. -/
  clients : List ClientConn
  /-- streams `publish_outbound` closed: the source closes none (closing
  happens only in `_handle_client`'s `finally`, lines 101–105). -/
  closedIds : List Nat
  /-- whether the call re-raises: `ConnectionError`/`OSError` are caught. -/
  raised : Bool
deriving DecidableEq, Repr

/-- `NetworkBusServer.publish_outbound` (lines 64–73). -/
def publish_outbound (clients : List ClientConn) : PublishOutcome :=
  let dead := clients.filter (fun c => c.sendFails)
  { sendAttempts := clients.map (fun c => c.id)
    delivered := (clients.filter (fun c => !c.sendFails)).map (fun c => c.id)
    clients := dead.foldl (fun acc w => acc.eraseP (fun c => c.id == w.id)) clients
    closedIds := []
    raised := false }

/-- Erasing elements that are not at the head commutes with keeping the head. -/
theorem foldl_eraseP_cons_of_ne (c : ClientConn) (l : List ClientConn)
    (ws : List ClientConn) (h : ∀ w ∈ ws, w.id ≠ c.id) :
    ws.foldl (fun acc w => acc.eraseP (fun x => x.id == w.id)) (c :: l)
      = c :: ws.foldl (fun acc w => acc.eraseP (fun x => x.id == w.id)) l := by
  induction ws generalizing l with
  | nil => rfl
  | cons w ws ih =>
    have hne : (c.id == w.id) = false := by
      simp only [beq_eq_false_iff_ne, ne_eq]
      exact fun hc => h w (List.mem_cons_self w ws) hc.symm
    simp only [List.foldl_cons, List.eraseP_cons, hne]
    exact ih _ (fun w' hw' => h w' (List.mem_cons_of_mem w hw'))

/-- The eviction loop of `publish_outbound`: removing the dead clients one by
one from a duplicate-free client list keeps exactly the clients whose send
succeeded. -/
theorem foldl_eraseP_filter (l : List ClientConn)
    (h : (l.map (fun c => c.id)).Nodup) :
    (l.filter (fun c => c.sendFails)).foldl
        (fun acc w => acc.eraseP (fun x => x.id == w.id)) l
      = l.filter (fun c => !c.sendFails) := by
  induction l with
  | nil => rfl
  | cons c t ih =>
    simp only [List.map_cons, List.nodup_cons] at h
    obtain ⟨hnotmem, hnodup⟩ := h
    by_cases hp : c.sendFails
    · rw [List.filter_cons_of_pos (by simp [hp]), List.filter_cons_of_neg (by simp [hp])]
      simp only [List.foldl_cons, List.eraseP_cons, beq_self_eq_true, cond_true]
      exact ih hnodup
    · rw [List.filter_cons_of_neg (by simp [hp]), List.filter_cons_of_pos (by simp [hp])]
      rw [foldl_eraseP_cons_of_ne]
      · rw [ih hnodup]
      · intro w hw hressurect
        exact hnotmem (hressurect ▸ List.mem_map_of_mem (fun x => x.id)
          (List.mem_of_mem_filter hw))

/-- Claim C6 (amended): `publish_outbound` attempts a send to every client in
the current set; every client whose send raises a connection error is removed
from the set (its stream is closed later by its connection handler, not here);
the call itself catches those errors and raises nothing; and a call with an
empty client set returns successfully. -/
theorem publish_outbound_spec (clients : List ClientConn)
    (hids : (clients.map (fun c => c.id)).Nodup) :
    (publish_outbound clients).sendAttempts = clients.map (fun c => c.id) ∧
    (publish_outbound clients).delivered
        = (clients.filter (fun c => !c.sendFails)).map (fun c => c.id) ∧
    (publish_outbound clients).clients = clients.filter (fun c => !c.sendFails) ∧
    (publish_outbound clients).raised = false ∧
    (publish_outbound ([] : List ClientConn)).clients = [] ∧
    (publish_outbound ([] : List ClientConn)).raised = false :=
  ⟨rfl, rfl, foldl_eraseP_filter clients hids, rfl, rfl, rfl⟩

/-- Witness for C6 at a concrete client set: ids 1, 2, 3 with client 2's send
failing. -/
theorem publish_outbound_spec_witness :
    (([⟨1, false⟩, ⟨2, true⟩, ⟨3, false⟩] : List ClientConn).map
        (fun c => c.id)).Nodup ∧
    (publish_outbound [⟨1, false⟩, ⟨2, true⟩, ⟨3, false⟩]).clients
        = ([⟨1, false⟩, ⟨2, true⟩, ⟨3, false⟩] : List ClientConn).filter
            (fun c => !c.sendFails) :=
  ⟨by decide, (publish_outbound_spec [⟨1, false⟩, ⟨2, true⟩, ⟨3, false⟩] (by decide)).2.2.1⟩

/-- Counterexample to claim C6 as stated: the single client (id 7) whose send
raises a connection error is evicted from the set, but `publish_outbound`
closes no stream — the claim's "and its stream closed" does not happen in
this call (closing is left to the connection handler's `finally`). -/
theorem publish_outbound_counterexample :
    (publish_outbound [⟨7, true⟩]).clients = [] ∧
    (publish_outbound [⟨7, true⟩]).closedIds = [] := by
  decide

/-! ## Event serialization (src/nanoclaw/bus/events.py)

`InboundMessage.to_dict` copies the dataclass fields into a dict and replaces
`timestamp` by `self.timestamp.isoformat()`; `from_dict` copies the dict back
through the dataclass constructor, first running
`datetime.fromisoformat(d["timestamp"])` when the timestamp entry is a
string.  `datetime` here is Python's naive wall-clock datetime
(`datetime.now()` in events.py line 16): `isoformat()` prints
`YYYY-MM-DDTHH:MM:SS` and appends `.ffffff` exactly when `microsecond != 0`;
`fromisoformat` parses that format back, raising `ValueError` (embedded as
`none`) on malformed text, and the constructor enforces the field ranges of
`DateTime.Valid` below. -/

/-- The ASCII digit character for one decimal digit (code point 48 + d;
callers pass `n % 10`). -/
def digitChar (n : Nat) : Char :=
  Char.ofNat (48 + n)

/-- The decimal digit denoted by a character, if any (code points 48–57). -/
def charDigit (c : Char) : Option Nat :=
  if 48 ≤ c.toNat ∧ c.toNat ≤ 57 then some (c.toNat - 48) else none

/-- `"%0kd" % n`: n printed in exactly k decimal digits, zero-padded (the
low-order k digits when n does not fit, which the validity ranges rule out). -/
def printPad : Nat → Nat → List Char
  | 0, _ => []
  | k + 1, n => printPad k (n / 10) ++ [digitChar (n % 10)]

/-- Read exactly k decimal digits from the front of `s`. -/
def readFixed (k : Nat) (s : List Char) : Option (Nat × List Char) :=
  if (s.take k).length = k ∧ (s.take k).all (fun c => (charDigit c).isSome) = true then
    some ((s.take k).foldl (fun a c => a * 10 + (charDigit c).getD 0) 0, s.drop k)
  else none

/-- `printPad` emits exactly k characters. -/
theorem printPad_length (k n : Nat) : (printPad k n).length = k := by
  induction k generalizing n with
  | zero => rfl
  | succ k ih => simp [printPad, ih]

/-- `charDigit` inverts `digitChar` on actual digits. -/
theorem charDigit_digitChar (m : Nat) (h : m < 10) : charDigit (digitChar m) = some m := by
  interval_cases m <;> decide

/-- Every character `printPad` emits is a digit. -/
theorem printPad_all_digits (k n : Nat) :
    (printPad k n).all (fun c => (charDigit c).isSome) = true := by
  induction k generalizing n with
  | zero => rfl
  | succ k ih =>
    simp only [printPad, List.all_append, ih, List.all_cons, List.all_nil,
      Bool.and_true, Bool.true_and]
    rw [charDigit_digitChar (n % 10) (Nat.mod_lt n (by norm_num))]
    rfl

/-- Folding the place-value accumulator over `printPad k n` recovers
`n % 10 ^ k` on top of the incoming accumulator. -/
theorem foldl_digits_printPad (k : Nat) : ∀ n a : Nat,
    (printPad k n).foldl (fun a c => a * 10 + (charDigit c).getD 0) a
      = a * 10 ^ k + n % 10 ^ k := by
  induction k with
  | zero => intro n a; simp [printPad, Nat.mod_one]
  | succ k ih =>
    intro n a
    rw [printPad, List.foldl_append, ih (n / 10) a]
    simp only [List.foldl_cons, List.foldl_nil,
      charDigit_digitChar (n % 10) (Nat.mod_lt n (by norm_num)), Option.getD_some]
    have hsplit : n % 10 ^ (k + 1) = n % 10 + 10 * (n / 10 % 10 ^ k) := by
      rw [pow_succ', Nat.mod_mul]
    rw [hsplit, pow_succ]
    ring

/-- Reading k digits off a k-digit print recovers the printed value. -/
theorem readFixed_printPad (k n : Nat) (rest : List Char) :
    readFixed k (printPad k n ++ rest) = some (n % 10 ^ k, rest) := by
  have hlen := printPad_length k n
  have htake : (printPad k n ++ rest).take k = printPad k n := List.take_left' hlen
  have hdrop : (printPad k n ++ rest).drop k = rest := List.drop_left' hlen
  rw [readFixed, htake, hdrop, if_pos ⟨hlen, printPad_all_digits k n⟩,
    foldl_digits_printPad k n 0]
  rw [Nat.zero_mul, Nat.zero_add]

/-- Expect one exact character at the front. -/
def expectChar (c : Char) (s : List Char) : Option (List Char) :=
  match s with
  | c2 :: rest => if c2 = c then some rest else none
  | [] => none

/-- `expectChar` succeeds on its own character. -/
theorem expectChar_cons (c : Char) (rest : List Char) :
    expectChar c (c :: rest) = some rest := by
  simp [expectChar]

/-- A naive (timezone-free) Python `datetime.datetime`. -/
structure DateTime where
  year : Nat
  month : Nat
  day : Nat
  hour : Nat
  minute : Nat
  second : Nat
  microsecond : Nat
deriving DecidableEq, Repr

/-- Python `calendar.isleap` as the datetime constructor uses it. -/
def isLeapYear (y : Nat) : Bool :=
  (y % 4 == 0 && y % 100 != 0) || (y % 400 == 0)

/-- Days in a month, as Python's datetime validates `day`. -/
def daysInMonth (y m : Nat) : Nat :=
  if m = 2 then (if isLeapYear y then 29 else 28)
  else if m = 4 ∨ m = 6 ∨ m = 9 ∨ m = 11 then 30
  else 31

/-- The field ranges Python's `datetime` constructor enforces
(`MINYEAR = 1`, `MAXYEAR = 9999`). -/
def DateTime.Valid (d : DateTime) : Prop :=
  1 ≤ d.year ∧ d.year ≤ 9999 ∧ 1 ≤ d.month ∧ d.month ≤ 12 ∧
  1 ≤ d.day ∧ d.day ≤ daysInMonth d.year d.month ∧
  d.hour ≤ 23 ∧ d.minute ≤ 59 ∧ d.second ≤ 59 ∧ d.microsecond ≤ 999999

instance (d : DateTime) : Decidable d.Valid := by
  unfold DateTime.Valid
  exact inferInstance

/-- No month has more than 31 days. -/
theorem daysInMonth_le (y m : Nat) : daysInMonth y m ≤ 31 := by
  unfold daysInMonth
  split_ifs <;> norm_num

/-- `datetime.isoformat()`: `YYYY-MM-DDTHH:MM:SS`, with `.ffffff` appended
exactly when the microsecond field is non-zero. -/
def isoChars (d : DateTime) : List Char :=
  printPad 4 d.year ++ ('-' ::
    (printPad 2 d.month ++ ('-' ::
      (printPad 2 d.day ++ ('T' ::
        (printPad 2 d.hour ++ (':' ::
          (printPad 2 d.minute ++ (':' ::
            (printPad 2 d.second ++
              (if d.microsecond = 0 then [] else '.' :: printPad 6 d.microsecond)))))))))))

/-- `datetime.isoformat()` as a string. -/
def DateTime.isoformat (d : DateTime) : String :=
  String.mk (isoChars d)

/-- The optional fractional-seconds tail of the ISO format. -/
def parseMicro (s : List Char) : Option Nat :=
  match s with
  | [] => some 0
  | '.' :: rest =>
    match readFixed 6 rest with
    | some (us, []) => some us
    | _ => none
  | _ => none

/-- `datetime.fromisoformat` on the fragment `isoformat` emits: fixed-width
date and time fields, the optional 6-digit fraction, and the constructor's
range validation (`ValueError`, i.e. `none`, otherwise). -/
def parseIso (s : List Char) : Option DateTime := do
  let (y, s) ← readFixed 4 s
  let s ← expectChar '-' s
  let (mo, s) ← readFixed 2 s
  let s ← expectChar '-' s
  let (dy, s) ← readFixed 2 s
  let s ← expectChar 'T' s
  let (hh, s) ← readFixed 2 s
  let s ← expectChar ':' s
  let (mi, s) ← readFixed 2 s
  let s ← expectChar ':' s
  let (se, s) ← readFixed 2 s
  let us ← parseMicro s
  let d : DateTime := ⟨y, mo, dy, hh, mi, se, us⟩
  if d.Valid then some d else none

/-- `datetime.fromisoformat` over strings. -/
def datetime_fromisoformat (s : String) : Option DateTime :=
  parseIso s.data

/-- The ISO round trip: parsing a valid datetime's `isoformat` output
recovers the datetime exactly. -/
theorem parseIso_isoChars (d : DateTime) (h : d.Valid) : parseIso (isoChars d) = some d := by
  obtain ⟨y, mo, dy, hh, mi, se, us⟩ := d
  unfold DateTime.Valid at h
  simp only at h
  obtain ⟨h1, h2, h3, h4, h5, h6, h7, h8, h9, h10⟩ := h
  have hdm := daysInMonth_le y mo
  have hy : y % 10 ^ 4 = y := Nat.mod_eq_of_lt (by norm_num; omega)
  have hmo : mo % 10 ^ 2 = mo := Nat.mod_eq_of_lt (by norm_num; omega)
  have hdy : dy % 10 ^ 2 = dy := Nat.mod_eq_of_lt (by norm_num; omega)
  have hhh : hh % 10 ^ 2 = hh := Nat.mod_eq_of_lt (by norm_num; omega)
  have hmi : mi % 10 ^ 2 = mi := Nat.mod_eq_of_lt (by norm_num; omega)
  have hse : se % 10 ^ 2 = se := Nat.mod_eq_of_lt (by norm_num; omega)
  have hus : us % 10 ^ 6 = us := Nat.mod_eq_of_lt (by norm_num; omega)
  have hvalid : DateTime.Valid ⟨y, mo, dy, hh, mi, se, us⟩ := by
    unfold DateTime.Valid
    exact ⟨h1, h2, h3, h4, h5, h6, h7, h8, h9, h10⟩
  by_cases hus0 : us = 0
  · simp only [parseIso, isoChars, hus0, if_pos, readFixed_printPad, expectChar_cons,
      Option.bind_eq_bind, Option.some_bind, hy, hmo, hdy, hhh, hmi, hse, parseMicro]
    rw [if_pos]
    exact hus0 ▸ hvalid
  · have hrf6 : readFixed 6 (printPad 6 us) = some (us % 10 ^ 6, []) := by
      have h6 := readFixed_printPad 6 us []
      rwa [List.append_nil] at h6
    simp only [parseIso, isoChars, if_neg hus0, readFixed_printPad, expectChar_cons,
      Option.bind_eq_bind, Option.some_bind, hy, hmo, hdy, hhh, hmi, hse, parseMicro,
      hrf6, hus]
    rw [if_pos hvalid]

/-- The `timestamp` entry of a serialized message dict: `to_dict` always
writes the ISO string, but `from_dict`'s `isinstance(..., str)` check also
admits an already-typed datetime value, which it passes through unchanged. -/
inductive TimestampField where
  | str (s : String) : TimestampField
  | dt (d : DateTime) : TimestampField
deriving DecidableEq, Repr

/-- events.py `InboundMessage` (lines 8–23): a message received from a chat
channel.  `metadata` values are arbitrary JSON-compatible data (`Any`),
embedded as `JValue`. -/
structure InboundMessage where
  channel : String
  sender_id : String
  chat_id : String
  content : String
  timestamp : DateTime
  media : List String
  metadata : List (String × JValue)

/-- The dict `InboundMessage.to_dict` emits and `from_dict` consumes: the
dataclass fields with `timestamp` as a `TimestampField`. -/
structure InboundDict where
  channel : String
  sender_id : String
  chat_id : String
  content : String
  timestamp : TimestampField
  media : List String
  metadata : List (String × JValue)

/-- events.py `InboundMessage.to_dict` (lines 25–29): `asdict(self)` with
`d["timestamp"] = self.timestamp.isoformat()`. -/
def InboundMessage.to_dict (m : InboundMessage) : InboundDict :=
  { channel := m.channel, sender_id := m.sender_id, chat_id := m.chat_id,
    content := m.content, timestamp := TimestampField.str m.timestamp.isoformat,
    media := m.media, metadata := m.metadata }

/-- events.py `InboundMessage.from_dict` (lines 31–37): parse the timestamp
when it is a string (`ValueError` from `fromisoformat` is embedded as `none`),
then rebuild the dataclass. -/
def InboundMessage.from_dict (d : InboundDict) : Option InboundMessage :=
  match d.timestamp with
  | TimestampField.str s =>
    (datetime_fromisoformat s).map (fun t =>
      { channel := d.channel, sender_id := d.sender_id, chat_id := d.chat_id,
        content := d.content, timestamp := t, media := d.media, metadata := d.metadata })
  | TimestampField.dt t =>
    some { channel := d.channel, sender_id := d.sender_id, chat_id := d.chat_id,
           content := d.content, timestamp := t, media := d.media, metadata := d.metadata }

/-- events.py `OutboundMessage` (lines 40–49): a message to send to a chat
channel. -/
structure OutboundMessage where
  channel : String
  chat_id : String
  content : String
  reply_to : Option String
  media : List String
  metadata : List (String × JValue)

/-- The dict `OutboundMessage.to_dict` emits: the dataclass fields verbatim
(`asdict`). -/
structure OutboundDict where
  channel : String
  chat_id : String
  content : String
  reply_to : Option String
  media : List String
  metadata : List (String × JValue)

/-- events.py `OutboundMessage.to_dict` (lines 51–53): `asdict(self)`. -/
def OutboundMessage.to_dict (m : OutboundMessage) : OutboundDict :=
  { channel := m.channel, chat_id := m.chat_id, content := m.content,
    reply_to := m.reply_to, media := m.media, metadata := m.metadata }

/-- events.py `OutboundMessage.from_dict` (lines 55–58): `cls(**d)`. -/
def OutboundMessage.from_dict (d : OutboundDict) : OutboundMessage :=
  { channel := d.channel, chat_id := d.chat_id, content := d.content,
    reply_to := d.reply_to, media := d.media, metadata := d.metadata }

/-- Claim C1: `from_dict` is the exact inverse of `to_dict` for both event
types, with the timestamp serialized as an ISO-8601 string and recovered
equal (for every datetime the Python constructor can produce, i.e. every
valid one). -/
theorem message_dict_roundtrip :
    (∀ m : InboundMessage, m.timestamp.Valid →
      InboundMessage.from_dict (InboundMessage.to_dict m) = some m) ∧
    (∀ o : OutboundMessage, OutboundMessage.from_dict (OutboundMessage.to_dict o) = o) := by
  constructor
  · intro m hvalid
    simp only [InboundMessage.to_dict, InboundMessage.from_dict, datetime_fromisoformat,
      DateTime.isoformat]
    rw [parseIso_isoChars m.timestamp hvalid]
    rfl
  · intro o
    rfl

/-- Witness for C1 at a concrete message: channel telegram, timestamp
2025-01-02T03:04:05.000006. -/
theorem message_dict_roundtrip_witness :
    DateTime.Valid ⟨2025, 1, 2, 3, 4, 5, 6⟩ ∧
    InboundMessage.from_dict
        (InboundMessage.to_dict
          ⟨"telegram", "999", "42", "ping", ⟨2025, 1, 2, 3, 4, 5, 6⟩, [], []⟩)
      = some ⟨"telegram", "999", "42", "ping", ⟨2025, 1, 2, 3, 4, 5, 6⟩, [], []⟩ :=
  ⟨by decide,
    message_dict_roundtrip.1
      ⟨"telegram", "999", "42", "ping", ⟨2025, 1, 2, 3, 4, 5, 6⟩, [], []⟩ (by decide)⟩

/-! ## Inbound queue of the network bus server (src/nanoclaw/bus/network.py)

`NetworkBusServer.__init__` (line 51) creates
`self._inbound: asyncio.Queue[InboundMessage] = asyncio.Queue()` with no
`maxsize`: an unbounded FIFO whose `put` never suspends for capacity.  Both
`publish_inbound` (lines 58–59) and the per-connection read loop
`_handle_client` (line 100) enqueue with `await self._inbound.put(msg)`, and
`inbound_size` (lines 112–114) reports `self._inbound.qsize()`.  The queue is
embedded as the list of waiting messages in FIFO order; a `put` that would
suspend is an `Option.none` result, which the unbounded `put` never
produces. -/

/-- `asyncio.Queue().put` on the server's unbounded inbound queue: always
enqueues immediately.  This is the enqueue performed both by
`NetworkBusServer.publish_inbound` and by `_handle_client` for each decoded
inbound frame. -/
def net_publish_inbound (queue : List InboundMessage) (m : InboundMessage) :
    List InboundMessage :=
  queue ++ [m]

/-- `NetworkBusServer.inbound_size`: the queue depth. -/
def net_inbound_size (queue : List InboundMessage) : Nat :=
  queue.length

/-- Modelled from the spec: `MessageBus.publish_inbound` of the in-process
bus (src/nanoclaw/bus/queue.py is not among the staged sources).  Spec §4.4:
"Both directions are bounded FIFO queues with blocking producers when full
(backpressure)" — a `put` on a full queue suspends, embedded as `none`. -/
def bounded_publish_inbound (maxsize : Nat) (queue : List InboundMessage)
    (m : InboundMessage) : Option (List InboundMessage) :=
  if queue.length < maxsize then some (queue ++ [m]) else none

/-- Claim C10: the network bus server's inbound queue is unbounded — every
`publish_inbound`/read-loop enqueue completes immediately and grows the queue
depth by one, so `inbound_size` grows without bound (n enqueues from empty
leave depth n) — whereas the bounded in-process bus suspends its producer on
a full queue. -/
theorem network_inbound_unbounded :
    (∀ (queue : List InboundMessage) (m : InboundMessage),
      net_inbound_size (net_publish_inbound queue m) = net_inbound_size queue + 1) ∧
    (∀ (m : InboundMessage) (n : Nat),
      net_inbound_size ((List.replicate n m).foldl net_publish_inbound []) = n) ∧
    (∀ (maxsize : Nat) (queue : List InboundMessage) (m : InboundMessage),
      queue.length = maxsize → bounded_publish_inbound maxsize queue m = none) := by
  refine ⟨?_, ?_, ?_⟩
  · intro queue m
    simp [net_publish_inbound, net_inbound_size]
  · intro m n
    have key : ∀ (k : Nat) (acc : List InboundMessage),
        net_inbound_size ((List.replicate k m).foldl net_publish_inbound acc)
          = net_inbound_size acc + k := by
      intro k
      induction k with
      | zero => intro acc; simp
      | succ k ih =>
        intro acc
        rw [List.replicate_succ, List.foldl_cons, ih]
        simp [net_publish_inbound, net_inbound_size]
        omega
    rw [key n []]
    simp [net_inbound_size]
  · intro maxsize queue m h
    simp [bounded_publish_inbound, h]

/-- Witness for C10: three enqueues from empty leave depth 3, and a bounded
bus of capacity 0 refuses (suspends) immediately. -/
theorem network_inbound_unbounded_witness :
    net_inbound_size
        ((List.replicate 3 (⟨"telegram", "9", "9", "hi", ⟨2025, 1, 1, 0, 0, 0, 0⟩, [], []⟩ :
          InboundMessage)).foldl net_publish_inbound []) = 3 ∧
    (([] : List InboundMessage).length = 0 ∧
      bounded_publish_inbound 0 []
          ⟨"telegram", "9", "9", "hi", ⟨2025, 1, 1, 0, 0, 0, 0⟩, [], []⟩ = none) :=
  ⟨network_inbound_unbounded.2.1 _ 3,
    ⟨rfl, network_inbound_unbounded.2.2 0 [] _ rfl⟩⟩

/-! ## Telegram message splitting (src/nanoclaw/channels/telegram.py, lines 105–139)

`_split_message(text, max_length)` returns `[text]` when it already fits;
otherwise it repeatedly looks for the highest occurrence of `"\n\n"`, then
`"\n"`, then `" "` inside `text[0:max_length]` (`str.rfind(sep, 0,
max_length)`, used only when the position is `> 0`), hard-cutting at
`max_length` when none is found, emits `text[:split_at]`, and continues with
`text[split_at:].lstrip("\n")`.  Text is embedded as `List Char`; the loop
recurses on a fuel argument equal to the initial length, which suffices
because every iteration consumes at least one character when
`max_length ≥ 1` (with `max_length = 0` the Python loop does not
terminate). -/

/-- Highest index `p ≤ i` at which `sep` occurs in `text`, scanning down. -/
def rfindDown (sep text : List Char) : Nat → Option Nat
  | 0 => if sep.isPrefixOf text then some 0 else none
  | i + 1 => if sep.isPrefixOf (text.drop (i + 1)) then some (i + 1) else rfindDown sep text i

/-- Python `text.rfind(sep, 0, bound)`: the highest index at which `sep`
occurs entirely inside `text[0:bound]`, `none` for Python's `-1`.  (In
`_split_message` `bound ≤ len(text)` always holds.) -/
def rfindIn (sep text : List Char) (bound : Nat) : Option Nat :=
  if sep.length ≤ bound then rfindDown sep text (bound - sep.length) else none

/-- The `if pos > 0` guard of the separator loop: a found position is used
only when it is positive. -/
def posWith (o : Option Nat) : Option Nat :=
  match o with
  | some p => if 0 < p then some p else none
  | none => none

/-- The `for sep in ("\n\n", "\n", " ")` loop plus the hard cut at
`max_length`. -/
def findSplit (maxLength : Nat) (text : List Char) : Nat :=
  match posWith (rfindIn ['\n', '\n'] text maxLength) with
  | some p => p
  | none =>
    match posWith (rfindIn ['\n'] text maxLength) with
    | some p => p
    | none =>
      match posWith (rfindIn [' '] text maxLength) with
      | some p => p
      | none => maxLength

/-- The `while text:` loop of `_split_message`. -/
def split_message_go (maxLength : Nat) : Nat → List Char → List (List Char)
  | _, [] => []
  | 0, _ :: _ => []
  | fuel + 1, c :: cs =>
    if (c :: cs).length ≤ maxLength then [c :: cs]
    else
      (c :: cs).take (findSplit maxLength (c :: cs)) ::
        split_message_go maxLength fuel
          (((c :: cs).drop (findSplit maxLength (c :: cs))).dropWhile (fun ch => ch == '\n'))

/-- telegram.py `_split_message`. -/
def split_message (text : List Char) (maxLength : Nat) : List (List Char) :=
  if text.length ≤ maxLength then [text] else split_message_go maxLength text.length text

/-- `rfindDown` never returns a position above its scan start. -/
theorem rfindDown_le (sep text : List Char) (i p : Nat)
    (h : rfindDown sep text i = some p) : p ≤ i := by
  induction i with
  | zero =>
    unfold rfindDown at h
    split at h
    · exact (Option.some.injEq _ _ ▸ h) ▸ le_rfl
    · exact absurd h (by simp)
  | succ i ih =>
    unfold rfindDown at h
    split at h
    · cases h
      exact le_rfl
    · exact Nat.le_succ_of_le (ih h)

/-- `rfindIn` never returns a position above the bound. -/
theorem rfindIn_le (sep text : List Char) (bound p : Nat)
    (h : rfindIn sep text bound = some p) : p ≤ bound := by
  unfold rfindIn at h
  split at h
  · exact le_trans (rfindDown_le sep text _ p h) (Nat.sub_le bound sep.length)
  · exact absurd h (by simp)

/-- `posWith` only passes positive positions. -/
theorem posWith_pos (o : Option Nat) (p : Nat) (h : posWith o = some p) : 1 ≤ p := by
  unfold posWith at h
  match o with
  | none => exact absurd h (by simp)
  | some q =>
    simp only at h
    split at h
    · cases h
      omega
    · exact absurd h (by simp)

/-- `posWith` preserves `rfindIn`'s bound. -/
theorem posWith_rfindIn_le (sep text : List Char) (bound p : Nat)
    (h : posWith (rfindIn sep text bound) = some p) : p ≤ bound := by
  unfold posWith at h
  match hr : rfindIn sep text bound with
  | none => rw [hr] at h; exact absurd h (by simp)
  | some q =>
    rw [hr] at h
    simp only at h
    split at h
    · cases h
      exact rfindIn_le sep text bound p hr
    · exact absurd h (by simp)

/-- The chosen split position is positive (when `max_length` is). -/
theorem findSplit_pos (maxLength : Nat) (text : List Char) (hml : 1 ≤ maxLength) :
    1 ≤ findSplit maxLength text := by
  unfold findSplit
  split
  · exact posWith_pos _ _ (by assumption)
  · split
    · exact posWith_pos _ _ (by assumption)
    · split
      · exact posWith_pos _ _ (by assumption)
      · exact hml

/-- The chosen split position never exceeds `max_length`. -/
theorem findSplit_le (maxLength : Nat) (text : List Char) :
    findSplit maxLength text ≤ maxLength := by
  unfold findSplit
  split
  · exact posWith_rfindIn_le _ _ _ _ (by assumption)
  · split
    · exact posWith_rfindIn_le _ _ _ _ (by assumption)
    · split
      · exact posWith_rfindIn_le _ _ _ _ (by assumption)
      · exact le_rfl

/-- Interleave each chunk with the run of leading newlines that was stripped
after it (the run after the last chunk is whatever `lstrip("\n")` discarded
when the remainder ran out). -/
def joinChunksRuns : List (List Char) → List (List Char) → List Char
  | [], _ => []
  | c :: cs, [] => c ++ joinChunksRuns cs []
  | c :: cs, r :: rs => c ++ (r ++ joinChunksRuns cs rs)

/-- The claim's reconstruction: chunks re-joined with newline runs restored
only between consecutive chunks. -/
def joinBetween : List (List Char) → List (List Char) → List Char
  | [], _ => []
  | [c], _ => c
  | c :: cs, r :: rs => c ++ (r ++ joinBetween cs rs)
  | c :: cs, [] => c ++ joinBetween cs []

/-- Every chunk `split_message_go` emits fits in `max_length`. -/
theorem split_message_go_chunk_le (maxLength : Nat) :
    ∀ (fuel : Nat) (text : List Char),
      ∀ chunk ∈ split_message_go maxLength fuel text, chunk.length ≤ maxLength := by
  intro fuel
  induction fuel with
  | zero =>
    intro text chunk hmem
    match text with
    | [] => exact absurd hmem (by simp [split_message_go])
    | _ :: _ => exact absurd hmem (by simp [split_message_go])
  | succ fuel ih =>
    intro text chunk hmem
    match text with
    | [] => exact absurd hmem (by simp [split_message_go])
    | c :: cs =>
      by_cases hle : (c :: cs).length ≤ maxLength
      · simp only [split_message_go, if_pos hle, List.mem_singleton] at hmem
        exact hmem ▸ hle
      · simp only [split_message_go, if_neg hle, List.mem_cons] at hmem
        rcases hmem with hmem | hmem
        · rw [hmem, List.length_take]
          exact le_trans (Nat.min_le_left _ _) (findSplit_le maxLength (c :: cs))
        · exact ih _ chunk hmem

/-- The stripped newline runs reconstruct the input: each iteration of the
loop splits the remaining text into the emitted chunk, the newline run
`lstrip("\n")` removed, and the next remainder. -/
theorem split_message_go_reconstruct (maxLength : Nat) (hml : 1 ≤ maxLength) :
    ∀ (fuel : Nat) (text : List Char), text.length ≤ fuel →
      ∃ runs : List (List Char),
        runs.length = (split_message_go maxLength fuel text).length ∧
        (∀ r ∈ runs, ∀ ch ∈ r, ch = '\n') ∧
        joinChunksRuns (split_message_go maxLength fuel text) runs = text := by
  intro fuel
  induction fuel with
  | zero =>
    intro text hlen
    have htext : text = [] := List.eq_nil_of_length_eq_zero (Nat.le_zero.mp hlen)
    subst htext
    exact ⟨[], rfl, by simp, rfl⟩
  | succ fuel ih =>
    intro text hlen
    match text with
    | [] => exact ⟨[], rfl, by simp, rfl⟩
    | c :: cs =>
      by_cases hle : (c :: cs).length ≤ maxLength
      · have hle' : cs.length + 1 ≤ maxLength := by simpa using hle
        refine ⟨[[]], by simp [split_message_go, hle'], by simp, ?_⟩
        simp [split_message_go, hle', joinChunksRuns]
      · have hle' : ¬ cs.length + 1 ≤ maxLength := by simpa using hle
        have hpos : 1 ≤ findSplit maxLength (c :: cs) := findSplit_pos _ _ hml
        have hrest :
            (((c :: cs).drop (findSplit maxLength (c :: cs))).dropWhile
              (fun ch => ch == '\n')).length ≤ fuel := by
          have hdw := (List.dropWhile_sublist (l := (c :: cs).drop
            (findSplit maxLength (c :: cs))) (fun ch => ch == '\n')).length_le
          have hdr : ((c :: cs).drop (findSplit maxLength (c :: cs))).length
              = (c :: cs).length - findSplit maxLength (c :: cs) := List.length_drop _ _
          simp only [List.length_cons] at hlen hdr
          omega
        obtain ⟨runs, hr1, hr2, hr3⟩ := ih _ hrest
        refine ⟨((c :: cs).drop (findSplit maxLength (c :: cs))).takeWhile
            (fun ch => ch == '\n') :: runs, ?_, ?_, ?_⟩
        · simp [split_message_go, hle', hr1]
        · intro r hr ch hch
          rcases List.mem_cons.mp hr with hr' | hr'
          · have := List.mem_takeWhile_imp (hr' ▸ hch)
            exact eq_of_beq this
          · exact hr2 r hr' ch hch
        · simp only [split_message_go, List.length_cons, if_neg hle', joinChunksRuns, hr3]
          rw [List.takeWhile_append_dropWhile, List.take_append_drop]

/-- Claim C8 (amended): for positive `max_length`, `_split_message` never
produces a chunk longer than `max_length`; a text that already fits is
returned as the single chunk `[text]`; and the chunks re-joined with the
stripped leading-newline runs restored reconstruct the original text — with
one newline run per chunk, the run after the last chunk being a possibly
non-empty trailing run that `lstrip("\n")` discarded with no following chunk
to carry it. -/
theorem split_message_spec (text : List Char) (maxLength : Nat) (hml : 1 ≤ maxLength) :
    (∀ chunk ∈ split_message text maxLength, chunk.length ≤ maxLength) ∧
    (text.length ≤ maxLength → split_message text maxLength = [text]) ∧
    (∃ runs : List (List Char),
      runs.length = (split_message text maxLength).length ∧
      (∀ r ∈ runs, ∀ ch ∈ r, ch = '\n') ∧
      joinChunksRuns (split_message text maxLength) runs = text) := by
  by_cases h : text.length ≤ maxLength
  · rw [split_message, if_pos h]
    refine ⟨?_, fun _ => rfl, ⟨[[]], rfl, by simp, ?_⟩⟩
    · intro chunk hm
      rw [List.mem_singleton] at hm
      exact hm ▸ h
    · simp [joinChunksRuns]
  · rw [split_message, if_neg h]
    exact ⟨split_message_go_chunk_le maxLength text.length text,
      fun hcon => absurd hcon h,
      split_message_go_reconstruct maxLength hml text.length text le_rfl⟩

/-- Witness for C8 at a concrete input: `"ab cd"` with `max_length = 3`
splits at the space. -/
theorem split_message_spec_witness :
    (1 : Nat) ≤ 3 ∧
    ((∀ chunk ∈ split_message ['a', 'b', ' ', 'c', 'd'] 3, chunk.length ≤ 3) ∧
      ((['a', 'b', ' ', 'c', 'd'] : List Char).length ≤ 3 →
        split_message ['a', 'b', ' ', 'c', 'd'] 3 = [['a', 'b', ' ', 'c', 'd']]) ∧
      (∃ runs : List (List Char),
        runs.length = (split_message ['a', 'b', ' ', 'c', 'd'] 3).length ∧
        (∀ r ∈ runs, ∀ ch ∈ r, ch = '\n') ∧
        joinChunksRuns (split_message ['a', 'b', ' ', 'c', 'd'] 3) runs
          = ['a', 'b', ' ', 'c', 'd'])) :=
  ⟨by decide, split_message_spec ['a', 'b', ' ', 'c', 'd'] 3 (by decide)⟩

/-- Counterexample to claim C8 as stated: `_split_message("a\n", 1)` returns
the single chunk `"a"`, so re-joining the chunks with stripped newlines
restored between non-first chunks yields `"a"`, not the original `"a\n"` —
the trailing newline was stripped after the last chunk and is lost. -/
theorem split_message_counterexample :
    split_message ['a', '\n'] 1 = [['a']] ∧
    ¬ ∃ runs : List (List Char),
        joinBetween (split_message ['a', '\n'] 1) runs = ['a', '\n'] := by
  have h : split_message ['a', '\n'] 1 = [['a']] := by decide
  refine ⟨h, ?_⟩
  rintro ⟨runs, hr⟩
  rw [h] at hr
  cases runs <;> simp [joinBetween] at hr

/-! ## Telegram inbound authorization (src/nanoclaw/channels/telegram.py, lines 543–669)

`TelegramChannel._on_message` returns immediately when the update carries no
message/user; builds `sender_id` as `str(user.id)` or
`str(user.id) + "|" + username`; in group chats returns unless the bot is
mentioned and `is_allowed` passes; in private chats returns unless
`is_allowed(sender_id, str(chat_id))` passes — all before storing the chat id
(line 571), downloading media (lines 610–624), starting the typing indicator
(line 654) or forwarding to `_handle_message` (line 657), which is what
publishes the InboundMessage on the bus (and is the only path by which a
session or an outbound reply can later be created for this event).  The
observable side effects are embedded as `OnMessageEffects`; the pure
content-string assembly (mention stripping, captions, transcription tags)
happens only on the allowed path and does not affect the claim. -/

/-- Modelled from the spec: `BaseChannel.is_allowed`
(src/nanoclaw/channels/base.py is not among the staged sources).  Spec §6:
"Authorization list.  For group chats, members are `chat_id` strings; for
direct chats, `sender_id` or `sender_id|username`.  Membership is literal
string equality; no wildcards." — the connector passes both identifiers and
an entry may match either one. -/
def is_allowed (allow_from : List String) (sender_id chat_id : String) : Bool :=
  allow_from.contains sender_id || allow_from.contains chat_id

/-- The sender identifier `_on_message` builds (lines 553–555):
`str(user.id)`, extended with `|username` when a username is set. -/
def telegram_sender_id (id : String) (username : Option String) : String :=
  match username with
  | some name => id ++ "|" ++ name
  | none => id

/-- One Telegram message update as `_on_message` inspects it. -/
structure TgUpdate where
  /-- `update.message` and `update.effective_user` are both present. -/
  hasMessage : Bool
  /-- `str(user.id)`. -/
  userId : String
  /-- `user.username`. -/
  username : Option String
  /-- `str(message.chat_id)`. -/
  chatId : String
  /-- whether `message.chat.type == "private"`. -/
  isPrivate : Bool
  /-- `_is_mentioned(message)`. -/
  mentioned : Bool
  /-- a photo/voice/audio/document is attached. -/
  hasMedia : Bool
deriving DecidableEq, Repr

/-- The observable side effects of one `_on_message` call. -/
structure OnMessageEffects where
  /-- `self._chat_ids[sender_id] = chat_id` (line 571) ran. -/
  storedChatId : Bool
  /-- media download (`bot.get_file` / `download_to_drive`) ran. -/
  downloadedMedia : Bool
  /-- `self._start_typing` (line 654) ran. -/
  startedTyping : Bool
  /-- `(sender_id, chat_id)` pairs handed to `_handle_message` (line 657),
  i.e. published to the bus; empty means no session and no outbound can
  result from this event. -/
  published : List (String × String)
deriving DecidableEq, Repr

/-- The no-op outcome of an early return. -/
def noEffects : OnMessageEffects :=
  { storedChatId := false, downloadedMedia := false, startedTyping := false, published := [] }

/-- `TelegramChannel._on_message` (lines 543–669) as its trace of side
effects. -/
def on_message (allow_from : List String) (u : TgUpdate) : OnMessageEffects :=
  if u.hasMessage = false then noEffects
  else
    let sender_id := telegram_sender_id u.userId u.username
    if u.isPrivate = false then
      if u.mentioned = false then noEffects
      else if is_allowed allow_from sender_id u.chatId = false then noEffects
      else
        { storedChatId := true, downloadedMedia := u.hasMedia, startedTyping := true,
          published := [(sender_id, u.chatId)] }
    else
      if is_allowed allow_from sender_id u.chatId = false then noEffects
      else
        { storedChatId := true, downloadedMedia := u.hasMedia, startedTyping := true,
          published := [(sender_id, u.chatId)] }

/-- Claim C9: a direct-chat (private) inbound event whose sender fails
`is_allowed` is dropped before any non-trivial processing: nothing is
published to the bus (hence no session and no outbound), no chat id is
stored, no media downloaded, no typing indicator started. -/
theorem on_message_unauthorized_dm (allow_from : List String) (u : TgUpdate)
    (hpriv : u.isPrivate = true)
    (hdenied : is_allowed allow_from (telegram_sender_id u.userId u.username) u.chatId
      = false) :
    on_message allow_from u = noEffects := by
  unfold on_message
  rcases h : u.hasMessage with _ | _
  · simp
  · simp [h, hpriv, hdenied]

/-- Witness for C9: sender 999 in its own direct chat, `allow_from = ["123"]`. -/
theorem on_message_unauthorized_dm_witness :
    (({ hasMessage := true, userId := "999", username := none, chatId := "999",
        isPrivate := true, mentioned := false, hasMedia := false } : TgUpdate).isPrivate
      = true ∧
      is_allowed ["123"]
          (telegram_sender_id "999" none) "999" = false) ∧
    on_message ["123"]
        { hasMessage := true, userId := "999", username := none, chatId := "999",
          isPrivate := true, mentioned := false, hasMedia := false }
      = noEffects :=
  ⟨⟨rfl, by decide⟩,
    on_message_unauthorized_dm ["123"]
      { hasMessage := true, userId := "999", username := none, chatId := "999",
        isPrivate := true, mentioned := false, hasMedia := false } rfl (by decide)⟩
